import Mathlib

/-!
Merchant summary backend: key derivation, aggregation and request handling.

A shallow embedding of `src/main.go`.

* A `time.Time` is an instant (seconds since 1970-01-01T00:00:00Z) together with its
  `Location`, a table of zone transitions.  `Date`, `Time.date`, `Time.Clock`,
  `Time.Weekday`, `Time.AddDate` and `Time.Format` follow Go's `time` package: the
  calendar fields are read from the instant shifted by the zone offset in effect, and
  `Date` turns wall-clock fields back into an instant by looking the offset up in the
  location, as the library does.  Nanoseconds are left out (they pass through
  `AddDate` unchanged and are never formatted), the unbounded ends of the zone
  table stand for the library's smallest and largest `int64` instants, and a
  location is its table of transitions (a location without transitions is `time.UTC`
  or one made by `time.FixedZone`).
* The document store (`collection.Get`) is a function from document key to an
  outcome: an error value, or a result whose content decodes or fails to decode.
  `gocbGet` is the outcome function of the real client over the contents of a bucket.
* `int64` values are integers, and `+=` on the running total wraps modulo `2^64`.
* Every function that talks to the store also returns the list of keys it
  fetched, in order, so that "no lookup happens" can be stated.
-/

namespace Backend

/-! ## Calendar arithmetic on day numbers (`time` package) -/

/-- Number of days from 0001-01-01 to January 1 of `year`. -/
def daysBeforeYear (year : Int) : Int :=
  let p := year - 1
  365 * p + p / 4 - p / 100 + p / 400

/-- Gregorian leap-year rule. -/
def isLeap (year : Int) : Bool :=
  year % 4 == 0 && (year % 100 != 0 || year % 400 == 0)

/-- Number of days in a non-leap year before the first day of `month` (1-based);
`daysBefore 13 = 365`. -/
def daysBefore (month : Int) : Int :=
  if month ≤ 1 then 0 else if month = 2 then 31 else if month = 3 then 59
  else if month = 4 then 90 else if month = 5 then 120 else if month = 6 then 151
  else if month = 7 then 181 else if month = 8 then 212 else if month = 9 then 243
  else if month = 10 then 273 else if month = 11 then 304 else if month = 12 then 334
  else 365

/-- Length of a month, given whether the year is a leap year. -/
def monthLen (leap : Bool) (month : Int) : Int :=
  if month = 2 then (if leap then 29 else 28)
  else if month = 4 ∨ month = 6 ∨ month = 9 ∨ month = 11 then 30
  else 31

/-- Length of a calendar month: the number of its last day. -/
def daysIn (year month : Int) : Int := monthLen (isLeap year) month

/-- Length of a year in days. -/
def yearLen (year : Int) : Int := if isLeap year then 366 else 365

/-- Zero-based day of the year of a civil date. -/
def ydayOf (leap : Bool) (month day : Int) : Int :=
  let d := daysBefore month
  let d := if leap && decide (3 ≤ month) then d + 1 else d
  d + (day - 1)

/-- Model of the library's `norm(hi, lo, base)`: carry `lo` into `hi` so that
`0 ≤ lo < base`. -/
def norm (hi lo base : Int) : Int × Int := (hi + lo / base, lo % base)

/-- Day number (days since 0001-01-01) of a civil date, as `time.Date` computes it:
the month is normalised into 1..12 with overflow into the year, and the day may lie
outside the month (day 0 is the last day of the previous month). -/
def civilToDays (year month day : Int) : Int :=
  let ym := norm year (month - 1) 12
  let year := ym.1
  let month := ym.2 + 1
  daysBeforeYear year + ydayOf (isLeap year) month day

/-- Year and zero-based day of the year of a day number, by cutting off 400-, 100-,
4- and 1-year cycles. -/
def yearYday (days : Int) : Int × Int :=
  let d := days
  let n400 := d / 146097
  let d := d - 146097 * n400
  let n100 := d / 36524
  let n100 := n100 - n100 / 4
  let d := d - 36524 * n100
  let n4 := d / 1461
  let d := d - 1461 * n4
  let n1 := d / 365
  let n1 := n1 - n1 / 4
  let d := d - 365 * n1
  (400 * n400 + 100 * n100 + 4 * n4 + n1 + 1, d)

/-- Month and day of the month from the zero-based day of a non-leap year: estimate
the month as if every month had 31 days, then adjust by at most one. -/
def monthDayCommon (day : Int) : Int × Int :=
  let month := day / 31
  let stop := daysBefore (month + 2)
  if stop ≤ day then (month + 2, day - stop + 1)
  else (month + 1, day - daysBefore (month + 1) + 1)

/-- Month and day of the month from the zero-based day of the year: in a leap year
day 59 is February 29 and the days after it are shifted back by one. -/
def monthDay (leap : Bool) (yday : Int) : Int × Int :=
  if leap && decide (yday = 59) then (2, 29)
  else monthDayCommon (if leap && decide (59 < yday) then yday - 1 else yday)

/-- Year, month (1..12) and day of the month of a day number. -/
def civil (days : Int) : Int × Int × Int :=
  let yy := yearYday days
  let md := monthDay (isLeap yy.1) yy.2
  (yy.1, md.1, md.2)

/-! ## Locations and times (`time` package) -/

/-- A time zone table: the offset (seconds east of UTC) in effect before the first
transition, and the transitions in ascending order, each with the UTC instant at which
it happens and the offset in effect from then on. -/
structure Location where
  first : Int
  tx : List (Int × Int)
deriving DecidableEq

/-- What `Location.lookup` reports for an instant: the offset in effect, and the
instants between which it is in effect (`none` where the table has no bound). -/
structure ZoneSpan where
  offset : Int
  start : Option Int
  stop : Option Int
deriving DecidableEq

/-- Scan of the transition table for the zone in effect at `sec`. -/
def lookupFrom (offset : Int) (start : Option Int) : List (Int × Int) → Int → ZoneSpan
  | [], _ => ⟨offset, start, none⟩
  | (instant, next) :: rest, sec =>
    if sec < instant then ⟨offset, start, some instant⟩
    else lookupFrom next (some instant) rest sec

/-- Model of `l.lookup(sec)`: the zone in effect at the UTC instant `sec`. -/
def Location.lookup (l : Location) (sec : Int) : ZoneSpan :=
  lookupFrom l.first none l.tx sec

/-- The location `time.UTC`. -/
def UTC : Location := ⟨0, []⟩

/-- A `time.Time`: seconds since 1970-01-01T00:00:00Z, and the location. -/
structure Time where
  unix : Int
  loc : Location
deriving DecidableEq

/-- Seconds from 0001-01-01T00:00:00Z to 1970-01-01T00:00:00Z. -/
def unixToAbsolute : Int := 62135596800

/-- Model of `t.abs()`: seconds since 0001-01-01T00:00:00 on the wall clock of the
location, that is the instant shifted by the offset in effect at it. -/
def Time.abs (t : Time) : Int :=
  t.unix + (t.loc.lookup t.unix).offset + unixToAbsolute

/-- Day number of the wall-clock date of `t`. -/
def Time.days (t : Time) : Int := t.abs / 86400

/-- Model of `t.Date()`: year, month (1..12) and day of the month. -/
def Time.date (t : Time) : Int × Int × Int := civil t.days

/-- Model of `t.Clock()`: hour, minute and second within the day. -/
def Time.Clock (t : Time) : Int × Int × Int :=
  let s := t.abs % 86400
  (s / 3600, s % 3600 / 60, s % 60)

/-- Value of `time.Sunday`. -/
def Sunday : Int := 0

/-- Value of `time.Monday`. -/
def Monday : Int := 1

/-- Model of `t.Weekday()`: 0 is Sunday, 6 is Saturday (0001-01-01 is a Monday). -/
def Time.Weekday (t : Time) : Int := (t.days + 1) % 7

/-- Model of `time.Date(year, month, day, hour, min, sec, nsec, loc)`. The fields are
normalised, turned into seconds as if they were UTC, and then moved to UTC by the
offset the location reports: first the offset in effect at the as-if-UTC instant, and
when the result falls outside the span of that offset, the offset in effect at the
result. -/
def Date (year month day hour minute sec : Int) (loc : Location) : Time :=
  let ms := norm minute sec 60
  let hm := norm hour ms.1 60
  let dh := norm day hm.1 24
  let d := civilToDays year month dh.1
  let abs := d * 86400 + dh.2 * 3600 + hm.2 * 60 + ms.2
  let unix := abs - unixToAbsolute
  let span := loc.lookup unix
  if span.offset ≠ 0 then
    let utc := unix - span.offset
    let outside := (match span.start with
        | some start => decide (utc < start)
        | none => false) ||
      (match span.stop with
        | some stop => decide (stop ≤ utc)
        | none => false)
    let offset := if outside then (loc.lookup utc).offset else span.offset
    ⟨unix - offset, loc⟩
  else ⟨unix, loc⟩

/-- Model of `t.AddDate(years, months, days)`: add to the wall-clock date, keep the
wall-clock time, and let `Date` normalise in the location of `t`. -/
def Time.AddDate (t : Time) (years months days : Int) : Time :=
  let ymd := t.date
  let hms := t.Clock
  Date (ymd.1 + years) (ymd.2.1 + months) (ymd.2.2 + days) hms.1 hms.2.1 hms.2.2 t.loc

/-- Model of the `time` package's `appendInt`: a sign for negative numbers, then the
decimal digits zero-padded to `width`. -/
def appendInt (x : Int) (width : Nat) : String :=
  let digits := Nat.repr x.natAbs
  (if x < 0 then "-" else "") ++
    String.mk (List.replicate (width - digits.length) '0') ++ digits

/-- Model of `t.Format("2006-01-02")`. -/
def Time.Format (t : Time) : String :=
  let ymd := t.date
  appendInt ymd.1 4 ++ "-" ++ appendInt ymd.2.1 2 ++ "-" ++ appendInt ymd.2.2 2

/-! ## Data structures -/

/-- Request body. -/
structure MerchantSummaryRequest where
  MID : List String
deriving DecidableEq

/-- Summary document; `Amount` is an `int64` and `Count` an `int`. -/
structure MerchantSummary where
  MerchantID : String
  SummaryDate : String
  Amount : Int
  Count : Int
  LastTrxDate : String
deriving DecidableEq

/-- The `error_message` map: it always has exactly the two keys below. -/
structure ErrorMessage where
  indonesian : String
  english : String
deriving DecidableEq

structure ErrorSchema where
  ErrorCode : String
  ErrorMessage : ErrorMessage
deriving DecidableEq

structure OutputSchema where
  MerchantIDs : List String
  CurrentDate : String
  TodayTotalAmount : String
  WeeklyTotalAmount : String
  MonthlyTotalAmount : String
deriving DecidableEq

structure MerchantSummaryResponse where
  ErrorSchema : ErrorSchema
  OutputSchema : OutputSchema
deriving DecidableEq

/-- Zero value of `OutputSchema` (what `sendErrorResponse` leaves in place). -/
def OutputSchema.zero : OutputSchema := ⟨[], "", "", "", ""⟩

/-! ## Document store (`gocb` package) -/

/-- Error values returned by `collection.Get`: the sentinel `gocb.ErrDocumentNotFound`,
a `*gocb.KeyValueError` wrapping an inner error, or anything else. -/
inductive GocbError where
  | ErrDocumentNotFound
  | KeyValueError (inner : GocbError)
  | other (msg : String)
deriving DecidableEq

/-- Model of `errors.Is(err, gocb.ErrDocumentNotFound)`: the error is the sentinel or
wraps it. This is what reporting "not found" means for the client. -/
def GocbError.isNotFound : GocbError → Bool
  | .ErrDocumentNotFound => true
  | .KeyValueError inner => inner.isNotFound
  | .other _ => false

/-- What `collection.Get` hands back on success; `Content` is the outcome of
`getResult.Content(&summary)`: `none` when decoding fails. -/
structure GetResult where
  Content : Option MerchantSummary
deriving DecidableEq

/-- The collection, as a function from document key to the outcome of `Get`. -/
abbrev Collection := String → Except GocbError GetResult

/-- Contents of a bucket: for each key, nothing, or a stored document whose content
decodes into a summary (`some`) or does not (`none`). -/
abbrev Bucket := String → Option (Option MerchantSummary)

/-- Model of `(*gocb.Collection).Get` of gocb v2 on a reachable bucket: a stored
document is handed back, and an absent key is reported as a `*gocb.KeyValueError`
whose inner error is `gocb.ErrDocumentNotFound`. -/
def gocbGet (bucket : Bucket) : Collection := fun docID =>
  match bucket docID with
  | none => .error (.KeyValueError .ErrDocumentNotFound)
  | some content => .ok ⟨content⟩

/-- Errors built by the calculation functions with `fmt.Errorf`. -/
inductive CalcError where
  | failedToGet (docID : String) (cause : GocbError)
  | failedToDecode (docID : String)
deriving DecidableEq

/-- The `(int64, error)` pair returned by a calculation function, together with the
keys it passed to `collection.Get`, in order. -/
structure CalcResult where
  total : Int
  err : Option CalcError
  fetched : List String
deriving DecidableEq

/-- Reduction of an integer to the `int64` it wraps to. -/
def wrapInt64 (x : Int) : Int := (x + 2 ^ 63) % 2 ^ 64 - 2 ^ 63

/-! ## Calculation functions -/

/-- The `for _, mid := range merchantIDs` loop shared by the three calculation
functions, started with running total `total` and fetch log `fetched`; `docIDOf`
is the `fmt.Sprintf` that builds the document key of a merchant ID. The test
`err == gocb.ErrDocumentNotFound` is equality with the sentinel. -/
def sumLoop (collection : Collection) (docIDOf : String → String) :
    List String → Int → List String → CalcResult
  | [], total, fetched => ⟨total, none, fetched⟩
  | mid :: rest, total, fetched =>
    let docID := docIDOf mid
    match collection docID with
    | .error err =>
      if err = GocbError.ErrDocumentNotFound then
        sumLoop collection docIDOf rest total (fetched ++ [docID])
      else
        ⟨0, some (.failedToGet docID err), fetched ++ [docID]⟩
    | .ok getResult =>
      match getResult.Content with
      | none => ⟨0, some (.failedToDecode docID), fetched ++ [docID]⟩
      | some summary =>
        sumLoop collection docIDOf rest (wrapInt64 (total + summary.Amount))
          (fetched ++ [docID])

/-- Key fetched by `calculateDailyTotal` for `mid`. -/
def dailyDocID (date : Time) (mid : String) : String :=
  let dateStr := date.Format
  mid ++ "_daily_" ++ dateStr

/-- Calculate daily total for all merchants. -/
def calculateDailyTotal (collection : Collection) (merchantIDs : List String)
    (date : Time) : CalcResult :=
  sumLoop collection (dailyDocID date) merchantIDs 0 []

/-- The `daysToMonday` computed by `calculateWeeklyTotal`. -/
def daysToMonday (date : Time) : Int :=
  let dayOfWeek := date.Weekday
  if dayOfWeek = Sunday then 6 else dayOfWeek - Monday

/-- The `monday` computed by `calculateWeeklyTotal`. -/
def weekMonday (date : Time) : Time :=
  date.AddDate 0 0 (-daysToMonday date)

/-- The `friday` computed by `calculateWeeklyTotal`. -/
def weekFriday (date : Time) : Time :=
  (weekMonday date).AddDate 0 0 4

/-- Key fetched by `calculateWeeklyTotal` for `mid`. -/
def weeklyDocID (date : Time) (mid : String) : String :=
  let mondayStr := (weekMonday date).Format
  let fridayStr := (weekFriday date).Format
  mid ++ "_weekly_" ++ mondayStr ++ "_" ++ fridayStr

/-- Calculate weekly total (Monday-Friday) for all merchants. -/
def calculateWeeklyTotal (collection : Collection) (merchantIDs : List String)
    (date : Time) : CalcResult :=
  sumLoop collection (weeklyDocID date) merchantIDs 0 []

/-- The `lastDayOfMonth` computed by `calculateMonthlyTotal`:
`time.Date(year, month+1, 0, 0, 0, 0, 0, date.Location())`. -/
def lastDayOfMonth (date : Time) : Time :=
  let ymd := date.date
  Date ymd.1 (ymd.2.1 + 1) 0 0 0 0 date.loc

/-- Key fetched by `calculateMonthlyTotal` for `mid`. -/
def monthlyDocID (date : Time) (mid : String) : String :=
  let lastDayStr := (lastDayOfMonth date).Format
  mid ++ "_monthly_" ++ lastDayStr

/-- Calculate monthly total for all merchants. -/
def calculateMonthlyTotal (collection : Collection) (merchantIDs : List String)
    (date : Time) : CalcResult :=
  sumLoop collection (monthlyDocID date) merchantIDs 0 []

/-! ## Handler -/

/-- What the handler wrote: the status code and the encoded response. -/
structure HttpResponse where
  statusCode : Nat
  body : MerchantSummaryResponse
deriving DecidableEq

/-- Outcome of one request: the response, and every key fetched while serving it. -/
structure HandlerResult where
  response : HttpResponse
  fetched : List String
deriving DecidableEq

/-- Send error response. -/
def sendErrorResponse (errorCode message : String) (statusCode : Nat) : HttpResponse :=
  ⟨statusCode, ⟨⟨errorCode, ⟨message, message⟩⟩, OutputSchema.zero⟩⟩

/-- Model of `fmt.Sprintf("%d", x)` for an `int64`. -/
def sprintfD (x : Int) : String :=
  if x < 0 then "-" ++ Nat.repr x.natAbs else Nat.repr x.natAbs

/-- Get merchant summary endpoint. `body` is the outcome of decoding the request
body (`none` when decoding fails) and `now` the value of `time.Now()`. -/
def getMerchantSummary (collection : Collection) (now : Time)
    (body : Option MerchantSummaryRequest) : HandlerResult :=
  match body with
  | none => ⟨sendErrorResponse "E001" "Invalid request body" 400, []⟩
  | some req =>
    if req.MID.length = 0 then
      ⟨sendErrorResponse "E002" "Merchant IDs are required" 400, []⟩
    else
      let currentDate := now
      let currentDateStr := currentDate.Format
      let daily := calculateDailyTotal collection req.MID currentDate
      if daily.err.isSome then
        ⟨sendErrorResponse "E003" "Failed to calculate daily total" 500, daily.fetched⟩
      else
        let weekly := calculateWeeklyTotal collection req.MID currentDate
        if weekly.err.isSome then
          ⟨sendErrorResponse "E004" "Failed to calculate weekly total" 500,
            daily.fetched ++ weekly.fetched⟩
        else
          let monthly := calculateMonthlyTotal collection req.MID currentDate
          if monthly.err.isSome then
            ⟨sendErrorResponse "E005" "Failed to calculate monthly total" 500,
              daily.fetched ++ weekly.fetched ++ monthly.fetched⟩
          else
            ⟨⟨200, ⟨⟨"D000", ⟨"Berhasil", "Success"⟩⟩,
                ⟨req.MID, currentDateStr, sprintfD daily.total, sprintfD weekly.total,
                  sprintfD monthly.total⟩⟩⟩,
              daily.fetched ++ weekly.fetched ++ monthly.fetched⟩

/-! ## Vocabulary of the properties -/

/-- The three aggregation windows. -/
inductive Window where
  | daily
  | weekly
  | monthly
deriving DecidableEq

/-- Key derived for a merchant ID in a window. -/
def docIDFor : Window → Time → String → String
  | .daily => dailyDocID
  | .weekly => weeklyDocID
  | .monthly => monthlyDocID

/-- The calculation function of a window. -/
def calculate : Window → Collection → List String → Time → CalcResult
  | .daily => calculateDailyTotal
  | .weekly => calculateWeeklyTotal
  | .monthly => calculateMonthlyTotal

/-- The condition under which the loop stops with an error at `docID`: `Get` returns
an error that is not equal to the sentinel, or the fetched document fails to decode. -/
def abortsAt (collection : Collection) (docID : String) : Bool :=
  match collection docID with
  | .error err => decide (err ≠ GocbError.ErrDocumentNotFound)
  | .ok getResult => getResult.Content.isNone

/-- The lookup at `docID` reports a failure other than not-found, or the fetched
document fails to decode. -/
def failsAt (collection : Collection) (docID : String) : Bool :=
  match collection docID with
  | .error err => !err.isNotFound
  | .ok getResult => getResult.Content.isNone

/-- The `amount` of the document that exists at `docID`; 0 when there is none. -/
def amountAt (collection : Collection) (docID : String) : Int :=
  match collection docID with
  | .error _ => 0
  | .ok getResult =>
    match getResult.Content with
    | none => 0
    | some summary => summary.Amount

/-- Sum of a list of amounts in `int64` arithmetic, added left to right. -/
def int64Sum (amounts : List Int) : Int :=
  amounts.foldl (fun acc a => wrapInt64 (acc + a)) 0

/-! ## Example inputs -/

/-- 2024-01-03 12:00:00 UTC, a Wednesday. -/
def exampleNow : Time := ⟨1704283200, UTC⟩

/-- A summary document of `mid` with the given amount. -/
def summaryOf (mid : String) (amount : Int) : MerchantSummary :=
  ⟨mid, "2024-01-03", amount, 1, "2024-01-03"⟩

/-- Bucket in which nothing is stored. -/
def emptyBucket : Bucket := fun _ => none

/-- Bucket of the specification's scenario: M1 has a daily document of amount 100 for
2024-01-03, and nothing else is stored. -/
def exampleBucket : Bucket := fun docID =>
  if docID = "M1_daily_2024-01-03" then some (some (summaryOf "M1" 100)) else none

/-- Bucket with daily documents of 2024-01-03 for M1 (amount 100) and M2 (amount 250). -/
def twoBucket : Bucket := fun docID =>
  if docID = "M1_daily_2024-01-03" then some (some (summaryOf "M1" 100))
  else if docID = "M2_daily_2024-01-03" then some (some (summaryOf "M2" 250))
  else none

/-- Bucket in which M1's daily document of 2024-01-03 holds the largest int64 amount. -/
def bigBucket : Bucket := fun docID =>
  if docID = "M1_daily_2024-01-03" then some (some (summaryOf "M1" 9223372036854775807))
  else none

/-- Bucket with M1's daily document, and a weekly document that does not decode. -/
def weeklyBrokenBucket : Bucket := fun docID =>
  if docID = "M1_daily_2024-01-03" then some (some (summaryOf "M1" 100))
  else if docID = "M1_weekly_2024-01-01_2024-01-05" then some none
  else none

/-- Bucket with M1's daily and weekly documents and no monthly document. -/
def noMonthlyBucket : Bucket := fun docID =>
  if docID = "M1_daily_2024-01-03" then some (some (summaryOf "M1" 100))
  else if docID = "M1_weekly_2024-01-01_2024-01-05" then some (some (summaryOf "M1" 700))
  else none

/-- Bucket with M1's daily (100), weekly (700) and monthly (3000) documents for
2024-01-03. -/
def fullBucket : Bucket := fun docID =>
  if docID = "M1_daily_2024-01-03" then some (some (summaryOf "M1" 100))
  else if docID = "M1_weekly_2024-01-01_2024-01-05" then some (some (summaryOf "M1" 700))
  else if docID = "M1_monthly_2024-01-31" then some (some (summaryOf "M1" 3000))
  else none

/-- Zone table of Atlantic/Azores from autumn 2023 to autumn 2030: UTC-1 in winter and
UTC+0 in summer, changing at 01:00 UTC on the last Sunday of March and of October. -/
def azores : Location :=
  ⟨0, [(1698541200, -3600), (1711846800, 0), (1729990800, -3600), (1743296400, 0),
    (1761440400, -3600), (1774746000, 0), (1792890000, -3600), (1806195600, 0),
    (1824944400, -3600), (1837645200, 0), (1856394000, -3600), (1869094800, 0),
    (1887843600, -3600), (1901149200, 0), (1919293200, -3600)]⟩

/-- 2024-03-15 12:00:00 in Atlantic/Azores (2024-03-15T13:00:00Z). -/
def azoresMarch2024 : Time := ⟨1710507600, azores⟩

/-- 2030-03-15 12:00:00 in Atlantic/Azores (2030-03-15T13:00:00Z). -/
def azoresMarch2030 : Time := ⟨1899810000, azores⟩

/-! ## Calendar lemmas -/

theorem isLeap_iff (y : Int) :
    isLeap y = true ↔ y % 4 = 0 ∧ (y % 100 ≠ 0 ∨ y % 400 = 0) := by
  simp [isLeap]

theorem cycles_arith (z b d1 c n100 d2 e d3 f n1 : Int)
    (hb : b = z / 146097) (hd1 : d1 = z - 146097 * b) (hc : c = d1 / 36524)
    (hn100 : n100 = c - c / 4) (hd2 : d2 = d1 - 36524 * n100) (he : e = d2 / 1461)
    (hd3 : d3 = d2 - 1461 * e) (hf : f = d3 / 365) (hn1 : n1 = f - f / 4) :
    0 ≤ n100 ∧ n100 ≤ 3 ∧ 0 ≤ e ∧ e ≤ 24 ∧ 0 ≤ n1 ∧ n1 ≤ 3 ∧
    z = 146097 * b + 36524 * n100 + 1461 * e + 365 * n1 + (d3 - 365 * n1) ∧
    0 ≤ d3 - 365 * n1 ∧
    (d3 - 365 * n1 < 365 ∨ (d3 - 365 * n1 = 365 ∧ n1 = 3 ∧ (e < 24 ∨ n100 = 3))) := by
  have hd1r : 0 ≤ d1 ∧ d1 < 146097 := by omega
  have hcr : c = 0 ∨ c = 1 ∨ c = 2 ∨ c = 3 ∨ c = 4 := by omega
  have hfr : f = 0 ∨ f = 1 ∨ f = 2 ∨ f = 3 ∨ f = 4 := by
    rcases hcr with h | h | h | h | h <;> subst h <;> omega
  rcases hcr with h | h | h | h | h <;> rcases hfr with h' | h' | h' | h' | h' <;>
    subst h <;> subst h' <;> omega

theorem yearLen_bounds (y : Int) : 365 ≤ yearLen y ∧ yearLen y ≤ 366 := by
  unfold yearLen; split <;> omega

theorem daysBeforeYear_succ (y : Int) :
    daysBeforeYear (y + 1) = daysBeforeYear y + yearLen y := by
  unfold yearLen
  split
  · rename_i h
    rw [isLeap_iff] at h
    simp only [daysBeforeYear]
    omega
  · rename_i h
    rw [isLeap_iff] at h
    simp only [daysBeforeYear]
    omega

theorem yearYday_spec (days : Int) :
    daysBeforeYear (yearYday days).1 + (yearYday days).2 = days ∧ 0 ≤ (yearYday days).2 ∧
      (yearYday days).2 < yearLen (yearYday days).1 := by
  have h := cycles_arith days _ _ _ _ _ _ _ _ _ rfl rfl rfl rfl rfl rfl rfl rfl rfl
  simp only [yearYday]
  generalize days / 146097 = b at h ⊢
  generalize (days - 146097 * b) / 36524 = c at h ⊢
  generalize c - c / 4 = n100 at h ⊢
  generalize (days - 146097 * b - 36524 * n100) / 1461 = e at h ⊢
  generalize (days - 146097 * b - 36524 * n100 - 1461 * e) / 365 = f at h ⊢
  generalize f - f / 4 = n1 at h ⊢
  generalize days - 146097 * b - 36524 * n100 - 1461 * e = d3 at h ⊢
  obtain ⟨h1, h2, h3, h4, h5, h6, h7, h8, h9⟩ := h
  have hl : isLeap (400 * b + 100 * n100 + 4 * e + n1 + 1) = true ↔
      n1 = 3 ∧ (e < 24 ∨ n100 = 3) := by
    rw [isLeap_iff]; omega
  refine ⟨?_, h8, ?_⟩
  · simp only [daysBeforeYear]; omega
  · unfold yearLen
    split
    · omega
    · rename_i hnl
      rw [hl] at hnl
      omega

theorem daysBeforeYear_add (y : Int) (n : Nat) :
    daysBeforeYear y + 365 * n ≤ daysBeforeYear (y + n) := by
  induction n with
  | zero => simp
  | succ k ih =>
    have h1 := daysBeforeYear_succ (y + k)
    have h2 := yearLen_bounds (y + k)
    have h3 : y + ((k + 1 : Nat) : Int) = y + k + 1 := by push_cast; ring
    rw [h3, h1]
    push_cast
    omega

theorem daysBeforeYear_lt (y y2 : Int) (h : y < y2) :
    daysBeforeYear y + yearLen y ≤ daysBeforeYear y2 := by
  have h1 := daysBeforeYear_add (y + 1) (y2 - (y + 1)).toNat
  have h2 : ((y2 - (y + 1)).toNat : Int) = y2 - (y + 1) := Int.toNat_of_nonneg (by omega)
  rw [h2, daysBeforeYear_succ] at h1
  have h3 : y + 1 + (y2 - (y + 1)) = y2 := by ring
  rw [h3] at h1
  omega

theorem year_unique (y y2 a b : Int) (h : daysBeforeYear y + a = daysBeforeYear y2 + b)
    (ha : 0 ≤ a) (ha2 : a < yearLen y) (hb : 0 ≤ b) (hb2 : b < yearLen y2) :
    y = y2 ∧ a = b := by
  have hy : y = y2 := by
    rcases lt_trichotomy y y2 with h1 | h1 | h1
    · have := daysBeforeYear_lt y y2 h1
      omega
    · exact h1
    · have := daysBeforeYear_lt y2 y h1
      omega
  subst hy
  exact ⟨rfl, by omega⟩

theorem daysIn_eq (y m : Int) : daysIn y m = monthLen (isLeap y) m := rfl

theorem daysBefore_vals :
    daysBefore 1 = 0 ∧ daysBefore 2 = 31 ∧ daysBefore 3 = 59 ∧ daysBefore 4 = 90 ∧
    daysBefore 5 = 120 ∧ daysBefore 6 = 151 ∧ daysBefore 7 = 181 ∧ daysBefore 8 = 212 ∧
    daysBefore 9 = 243 ∧ daysBefore 10 = 273 ∧ daysBefore 11 = 304 ∧ daysBefore 12 = 334 ∧
    daysBefore 13 = 365 := by decide

theorem monthLen_vals (leap : Bool) :
    monthLen leap 1 = 31 ∧ monthLen leap 2 = 28 + (if leap then 1 else 0) ∧
    monthLen leap 3 = 31 ∧
    monthLen leap 4 = 30 ∧ monthLen leap 5 = 31 ∧ monthLen leap 6 = 30 ∧ monthLen leap 7 = 31 ∧
    monthLen leap 8 = 31 ∧ monthLen leap 9 = 30 ∧ monthLen leap 10 = 31 ∧
    monthLen leap 11 = 30 ∧ monthLen leap 12 = 31 := by
  cases leap <;> decide

theorem monthLen_feb : monthLen false 2 = 28 ∧ monthLen true 2 = 29 := by decide

theorem monthLen_not_feb (leap : Bool) (m : Int) (h : m ≠ 2) :
    monthLen leap m = monthLen false m := by
  unfold monthLen
  rw [if_neg h, if_neg h]

theorem monthLen_bounds (leap : Bool) (m : Int) : 1 ≤ monthLen leap m := by
  unfold monthLen; split_ifs <;> omega

theorem monthDayCommon_spec (day : Int) (h0 : 0 ≤ day) (h1 : day < 365) :
    1 ≤ (monthDayCommon day).1 ∧ (monthDayCommon day).1 ≤ 12 ∧
    1 ≤ (monthDayCommon day).2 ∧ (monthDayCommon day).2 ≤ monthLen false (monthDayCommon day).1 ∧
    daysBefore (monthDayCommon day).1 + ((monthDayCommon day).2 - 1) = day := by
  have hq : day / 31 = 0 ∨ day / 31 = 1 ∨ day / 31 = 2 ∨ day / 31 = 3 ∨ day / 31 = 4 ∨
      day / 31 = 5 ∨ day / 31 = 6 ∨ day / 31 = 7 ∨ day / 31 = 8 ∨ day / 31 = 9 ∨
      day / 31 = 10 ∨ day / 31 = 11 := by omega
  obtain ⟨b1, b2, b3, b4, b5, b6, b7, b8, b9, b10, b11, b12, b13⟩ := daysBefore_vals
  obtain ⟨l1, -, l3, l4, l5, l6, l7, l8, l9, l10, l11, l12⟩ := monthLen_vals false
  have l2 := monthLen_feb.1
  unfold monthDayCommon
  rcases hq with h | h | h | h | h | h | h | h | h | h | h | h <;> rw [h] <;>
    norm_num only [b1, b2, b3, b4, b5, b6, b7, b8, b9, b10, b11, b12, b13] <;>
    split <;>
    simp only [b1, b2, b3, b4, b5, b6, b7, b8, b9, b10, b11, b12, b13,
      l1, l2, l3, l4, l5, l6, l7, l8, l9, l10, l11, l12] <;>
    omega

theorem ydayOf_vals (leap : Bool) (d : Int) :
    ydayOf leap 1 d = d - 1 ∧ ydayOf leap 2 d = 31 + (d - 1) ∧
    ydayOf leap 3 d = (if leap then 60 else 59) + (d - 1) ∧
    ydayOf leap 4 d = (if leap then 91 else 90) + (d - 1) ∧
    ydayOf leap 5 d = (if leap then 121 else 120) + (d - 1) ∧
    ydayOf leap 6 d = (if leap then 152 else 151) + (d - 1) ∧
    ydayOf leap 7 d = (if leap then 182 else 181) + (d - 1) ∧
    ydayOf leap 8 d = (if leap then 213 else 212) + (d - 1) ∧
    ydayOf leap 9 d = (if leap then 244 else 243) + (d - 1) ∧
    ydayOf leap 10 d = (if leap then 274 else 273) + (d - 1) ∧
    ydayOf leap 11 d = (if leap then 305 else 304) + (d - 1) ∧
    ydayOf leap 12 d = (if leap then 335 else 334) + (d - 1) := by
  cases leap <;> simp [ydayOf, daysBefore]

/-- First and last zero-based day of the year of a month. -/
theorem ydayOf_range (leap : Bool) (m d : Int) (hm1 : 1 ≤ m) (hm2 : m ≤ 12)
    (hd1 : 1 ≤ d) (hd2 : d ≤ monthLen leap m) :
    ydayOf leap m 1 ≤ ydayOf leap m d ∧ ydayOf leap m d < ydayOf leap (m + 1) 1 ∧
    ydayOf leap m d = ydayOf leap m 1 + (d - 1) ∧
    ydayOf leap (m + 1) 1 = ydayOf leap m 1 + monthLen leap m ∧ 0 ≤ ydayOf leap m 1 ∧
    ydayOf leap (m + 1) 1 ≤ (if leap then 366 else 365) := by
  have hm : m = 1 ∨ m = 2 ∨ m = 3 ∨ m = 4 ∨ m = 5 ∨ m = 6 ∨ m = 7 ∨ m = 8 ∨ m = 9 ∨
      m = 10 ∨ m = 11 ∨ m = 12 := by omega
  cases leap <;> rcases hm with h | h | h | h | h | h | h | h | h | h | h | h <;> subst h <;>
    simp [ydayOf, daysBefore, monthLen] at hd2 ⊢ <;> omega

theorem ydayOf_start_mono (leap : Bool) (m m2 : Int) (hm1 : 1 ≤ m) (hm2 : m < m2)
    (hm3 : m2 ≤ 12) : ydayOf leap (m + 1) 1 ≤ ydayOf leap m2 1 := by
  have h1 : ∀ k : Nat, 1 ≤ m → m + 1 + k ≤ 12 →
      ydayOf leap (m + 1) 1 ≤ ydayOf leap (m + 1 + k) 1 := by
    intro k
    induction k with
    | zero => intro _ _; simp
    | succ j ih =>
      intro h1 h2
      have h3 := ih h1 (by push_cast at h2; omega)
      have h4 := ydayOf_range leap (m + 1 + j) 1 (by omega) (by push_cast at h2; omega)
        (by omega) (monthLen_bounds leap _)
      have h5 : m + 1 + ((j + 1 : Nat) : Int) = m + 1 + j + 1 := by push_cast; ring
      rw [h5]
      omega
  have h2 := h1 (m2 - (m + 1)).toNat hm1
  have h3 : ((m2 - (m + 1)).toNat : Int) = m2 - (m + 1) := Int.toNat_of_nonneg (by omega)
  rw [h3] at h2
  have h4 : m + 1 + (m2 - (m + 1)) = m2 := by ring
  rw [h4] at h2
  exact h2 hm3

theorem ydayOf_inj (leap : Bool) (m d m2 d2 : Int) (hm1 : 1 ≤ m) (hm2 : m ≤ 12)
    (hd1 : 1 ≤ d) (hd2 : d ≤ monthLen leap m) (hn1 : 1 ≤ m2) (hn2 : m2 ≤ 12)
    (he1 : 1 ≤ d2) (he2 : d2 ≤ monthLen leap m2)
    (h : ydayOf leap m d = ydayOf leap m2 d2) : m = m2 ∧ d = d2 := by
  have r1 := ydayOf_range leap m d hm1 hm2 hd1 hd2
  have r2 := ydayOf_range leap m2 d2 hn1 hn2 he1 he2
  have hm : m = m2 := by
    rcases lt_trichotomy m m2 with h1 | h1 | h1
    · have := ydayOf_start_mono leap m m2 hm1 h1 hn2
      omega
    · exact h1
    · have := ydayOf_start_mono leap m2 m hn1 h1 hm2
      omega
  subst hm
  exact ⟨rfl, by omega⟩

theorem monthDay_spec (leap : Bool) (yd : Int) (h0 : 0 ≤ yd)
    (h1 : yd < (if leap then 366 else 365)) :
    1 ≤ (monthDay leap yd).1 ∧ (monthDay leap yd).1 ≤ 12 ∧ 1 ≤ (monthDay leap yd).2 ∧
    (monthDay leap yd).2 ≤ monthLen leap (monthDay leap yd).1 ∧
    ydayOf leap (monthDay leap yd).1 (monthDay leap yd).2 = yd := by
  unfold monthDay
  cases leap
  · simp only [Bool.false_and, Bool.false_eq_true, if_false] at h1 ⊢
    have h := monthDayCommon_spec yd h0 h1
    refine ⟨h.1, h.2.1, h.2.2.1, h.2.2.2.1, ?_⟩
    simp only [ydayOf, Bool.false_and, Bool.false_eq_true, if_false]
    exact h.2.2.2.2
  · simp only [Bool.true_and, if_true, decide_eq_true_eq] at h1 ⊢
    obtain ⟨b1, b2, b3, b4, b5, b6, b7, b8, b9, b10, b11, b12, b13⟩ := daysBefore_vals
    by_cases h59 : yd = 59
    · subst h59; simp [monthLen, ydayOf, daysBefore]
    · rw [if_neg h59]
      by_cases hlt : 59 < yd
      · rw [if_pos hlt]
        have h := monthDayCommon_spec (yd - 1) (by omega) (by omega)
        generalize monthDayCommon (yd - 1) = md at h ⊢
        obtain ⟨mm, dd⟩ := md
        simp only at h ⊢
        obtain ⟨a1, a2, a3, a4, a5⟩ := h
        have hw := monthLen_vals false
        have hf := monthLen_feb
        have hmd : 3 ≤ mm := by
          by_contra hc
          have hc2 : mm = 1 ∨ mm = 2 := by omega
          rcases hc2 with hc3 | hc3 <;> subst hc3 <;> omega
        refine ⟨a1, a2, a3, ?_, ?_⟩
        · rw [monthLen_not_feb true mm (by omega)]; exact a4
        · simp only [ydayOf, Bool.true_and, decide_eq_true_eq, if_pos hmd]
          omega
      · rw [if_neg hlt]
        have h := monthDayCommon_spec yd (by omega) (by omega)
        generalize monthDayCommon yd = md at h ⊢
        obtain ⟨mm, dd⟩ := md
        simp only at h ⊢
        obtain ⟨a1, a2, a3, a4, a5⟩ := h
        have hc3 : mm ≤ 2 ∨ 59 ≤ daysBefore mm := by
          have hmm : mm = 1 ∨ mm = 2 ∨ mm = 3 ∨ mm = 4 ∨ mm = 5 ∨ mm = 6 ∨ mm = 7 ∨ mm = 8 ∨
              mm = 9 ∨ mm = 10 ∨ mm = 11 ∨ mm = 12 := by omega
          rcases hmm with e | e | e | e | e | e | e | e | e | e | e | e <;> subst e <;> omega
        have hmd : mm = 1 ∨ mm = 2 := by omega
        have hns : ¬ (3 ≤ mm) := by omega
        have hv := monthLen_vals true
        have hw := monthLen_vals false
        have hf := monthLen_feb
        refine ⟨a1, a2, a3, ?_, ?_⟩
        · rcases hmd with hc4 | hc4 <;> subst hc4 <;> omega
        · simp only [ydayOf, Bool.true_and, decide_eq_true_eq, if_neg hns]
          exact a5

theorem monthDay_ydayOf (leap : Bool) (m d : Int) (hm1 : 1 ≤ m) (hm2 : m ≤ 12)
    (hd1 : 1 ≤ d) (hd2 : d ≤ monthLen leap m) :
    monthDay leap (ydayOf leap m d) = (m, d) := by
  have r := ydayOf_range leap m d hm1 hm2 hd1 hd2
  have s := monthDay_spec leap (ydayOf leap m d) (by omega) (by omega)
  obtain ⟨s1, s2, s3, s4, s5⟩ := s
  have := ydayOf_inj leap _ _ m d s1 s2 s3 s4 hm1 hm2 hd1 hd2 s5
  exact Prod.ext this.1 this.2

theorem civilToDays_of_month (y m d : Int) (hm1 : 1 ≤ m) (hm2 : m ≤ 12) :
    civilToDays y m d = daysBeforeYear y + ydayOf (isLeap y) m d := by
  have h1 : (m - 1) / 12 = 0 := by omega
  have h2 : (m - 1) % 12 + 1 = m := by omega
  simp only [civilToDays, norm, h1, h2, add_zero]

theorem ydayOf_add (leap : Bool) (m d n : Int) :
    ydayOf leap m (d + n) = ydayOf leap m d + n := by
  simp only [ydayOf]; split <;> omega

theorem civilToDays_add (y m d n : Int) : civilToDays y m (d + n) = civilToDays y m d + n := by
  simp only [civilToDays, ydayOf_add]
  omega

/-- The date read from a day number is a valid calendar date and denotes that day. -/
theorem civil_valid (days : Int) :
    1 ≤ (civil days).2.1 ∧ (civil days).2.1 ≤ 12 ∧ 1 ≤ (civil days).2.2 ∧
      (civil days).2.2 ≤ daysIn (civil days).1 (civil days).2.1 ∧
      civilToDays (civil days).1 (civil days).2.1 (civil days).2.2 = days := by
  obtain ⟨h1, h2, h3⟩ := yearYday_spec days
  have h := monthDay_spec (isLeap (yearYday days).1) (yearYday days).2 h2 h3
  obtain ⟨a1, a2, a3, a4, a5⟩ := h
  refine ⟨a1, a2, a3, a4, ?_⟩
  have e := civilToDays_of_month (civil days).1 (civil days).2.1 (civil days).2.2 a1 a2
  rw [e]
  simp only [civil]
  rw [a5]; exact h1

/-- Reading back the date of a valid calendar date gives that date. -/
theorem civil_civilToDays (y m d : Int) (hm1 : 1 ≤ m) (hm2 : m ≤ 12) (hd1 : 1 ≤ d)
    (hd2 : d ≤ daysIn y m) : civil (civilToDays y m d) = (y, m, d) := by
  rw [daysIn_eq] at hd2
  have r := ydayOf_range (isLeap y) m d hm1 hm2 hd1 hd2
  have e := civilToDays_of_month y m d hm1 hm2
  generalize civilToDays y m d = z at e
  obtain ⟨h1, h2, h3⟩ := yearYday_spec z
  have hu := year_unique _ _ _ _ (h1.trans e) h2 h3 (by omega) (by unfold yearLen; omega)
  simp only [civil]
  rw [hu.1, hu.2, monthDay_ydayOf _ m d hm1 hm2 hd1 hd2]

/-- Day 0 of the following month is the last day of the month. -/
theorem civilToDays_next_month_zero (y m : Int) (hm1 : 1 ≤ m) (hm2 : m ≤ 12) :
    civilToDays y (m + 1) 0 = civilToDays y m (daysIn y m) := by
  rw [civilToDays_of_month y m _ hm1 hm2, daysIn_eq]
  have r := ydayOf_range (isLeap y) m 1 hm1 hm2 (le_refl 1) (monthLen_bounds _ _)
  have r5 : ydayOf (isLeap y) m (monthLen (isLeap y) m) =
      ydayOf (isLeap y) m 1 + (monthLen (isLeap y) m - 1) := by
    simp only [ydayOf]; split <;> omega
  have r6 : ∀ l k, ydayOf l k 0 = ydayOf l k 1 - 1 := by
    intro l k; simp only [ydayOf]; split <;> omega
  by_cases h12 : m = 12
  · subst h12
    have e1 : ((12 : Int) + 1 - 1) / 12 = 1 := by decide
    have e2 : ((12 : Int) + 1 - 1) % 12 + 1 = 1 := by decide
    simp only [civilToDays, norm, e1, e2]
    rw [daysBeforeYear_succ, r5, r6]
    have r7 : ∀ l, ydayOf l 1 1 = 0 := by intro l; cases l <;> decide
    have r8 : ydayOf (isLeap y) (12 + 1) 1 = yearLen y := by
      unfold yearLen; cases isLeap y <;> decide
    rw [r7]
    rw [r8] at r
    omega
  · rw [civilToDays_of_month y (m + 1) _ (by omega) (by omega), r5, r6]
    omega

/-! ## Times in a location without transitions -/

theorem lookup_of_no_tx (l : Location) (h : l.tx = []) (sec : Int) :
    l.lookup sec = ⟨l.first, none, none⟩ := by
  simp [Location.lookup, h, lookupFrom]

theorem abs_of_no_tx (t : Time) (h : t.loc.tx = []) :
    t.abs = t.unix + t.loc.first + unixToAbsolute := by
  simp [Time.abs, lookup_of_no_tx _ h]

theorem Date_loc (y m d h mi s : Int) (l : Location) : (Date y m d h mi s l).loc = l := by
  unfold Date
  simp only
  split <;> rfl

/-- In a location without transitions `Date` denotes exactly the wall-clock fields it
is given. -/
theorem Date_abs_of_no_tx (y m d h mi s : Int) (l : Location) (hl : l.tx = [])
    (h0 : 0 ≤ h) (h1 : h < 24) (m0 : 0 ≤ mi) (m1 : mi < 60) (s0 : 0 ≤ s) (s1 : s < 60) :
    (Date y m d h mi s l).abs = civilToDays y m d * 86400 + h * 3600 + mi * 60 + s := by
  have hloc := Date_loc y m d h mi s l
  rw [abs_of_no_tx _ (by rw [hloc]; exact hl), hloc]
  have e1 : s / 60 = 0 := by omega
  have e2 : s % 60 = s := by omega
  have e3 : mi / 60 = 0 := by omega
  have e4 : mi % 60 = mi := by omega
  have e5 : h / 24 = 0 := by omega
  have e6 : h % 24 = h := by omega
  simp only [Date, norm, lookup_of_no_tx l hl, e1, e2, e3, e4, e5, e6, add_zero]
  split <;> simp only <;> omega

theorem Clock_range (t : Time) :
    0 ≤ t.Clock.1 ∧ t.Clock.1 < 24 ∧ 0 ≤ t.Clock.2.1 ∧ t.Clock.2.1 < 60 ∧
    0 ≤ t.Clock.2.2 ∧ t.Clock.2.2 < 60 ∧
    t.abs = t.days * 86400 + t.Clock.1 * 3600 + t.Clock.2.1 * 60 + t.Clock.2.2 := by
  simp only [Time.Clock, Time.days]
  omega

/-- In a location without transitions `AddDate(0, 0, n)` moves the wall clock by exactly
`n` days and keeps the time of day. -/
theorem AddDate_days_of_no_tx (t : Time) (n : Int) (h : t.loc.tx = []) :
    (t.AddDate 0 0 n).loc = t.loc ∧ (t.AddDate 0 0 n).days = t.days + n := by
  obtain ⟨c1, c2, c3, c4, c5, c6, c7⟩ := Clock_range t
  obtain ⟨-, -, -, -, v⟩ := civil_valid t.days
  have hab := Date_abs_of_no_tx t.date.1 t.date.2.1 (t.date.2.2 + n) t.Clock.1 t.Clock.2.1
    t.Clock.2.2 t.loc h c1 c2 c3 c4 c5 c6
  rw [civilToDays_add] at hab
  simp only [Time.date] at hab
  rw [v] at hab
  refine ⟨Date_loc _ _ _ _ _ _ _, ?_⟩
  simp only [Time.AddDate, add_zero, Time.days, Time.date]
  simp only [Time.days] at hab c7
  rw [hab]
  omega

theorem weekMonday_of_no_tx (date : Time) (h : date.loc.tx = []) :
    (weekMonday date).loc = date.loc ∧
      (weekMonday date).days = date.days - daysToMonday date := by
  obtain ⟨h1, h2⟩ := AddDate_days_of_no_tx date (-daysToMonday date) h
  exact ⟨h1, by unfold weekMonday; rw [h2]; omega⟩

theorem weekFriday_of_no_tx (date : Time) (h : date.loc.tx = []) :
    (weekFriday date).days = (weekMonday date).days + 4 := by
  obtain ⟨h1, -⟩ := weekMonday_of_no_tx date h
  exact (AddDate_days_of_no_tx (weekMonday date) 4 (by rw [h1]; exact h)).2

theorem daysToMonday_eq (date : Time) : daysToMonday date = date.days % 7 := by
  simp only [daysToMonday, Time.Weekday, Sunday, Monday]
  split <;> omega

/-- Where the location has no transitions, the weekly key is built from the Monday on or
before the reference date (at most 6 days before, 6 exactly on a Sunday) and from the
Friday 4 days after that Monday. -/
theorem weekly_key_of_no_tx (mid : String) (date : Time) (h : date.loc.tx = []) :
    weeklyDocID date mid =
      mid ++ "_weekly_" ++ (weekMonday date).Format ++ "_" ++ (weekFriday date).Format ∧
    (weekMonday date).Weekday = Monday ∧
    (weekMonday date).days ≤ date.days ∧
    date.days - (weekMonday date).days ≤ 6 ∧
    (date.days - (weekMonday date).days = 6 ↔ date.Weekday = Sunday) ∧
    (weekFriday date).days = (weekMonday date).days + 4 ∧
    (weekFriday date).Weekday = 5 := by
  have hm := (weekMonday_of_no_tx date h).2
  have hf := weekFriday_of_no_tx date h
  have hd := daysToMonday_eq date
  refine ⟨rfl, ?_, ?_, ?_, ?_, hf, ?_⟩
  · simp only [Time.Weekday, Monday]; omega
  · omega
  · omega
  · simp only [Time.Weekday, Sunday]; omega
  · simp only [Time.Weekday]; omega

/-- Where the locations have no transitions, two reference dates of one Monday-to-Sunday
week derive the same weekly key. -/
theorem weekly_key_same_week_of_no_tx (mid : String) (d1 d2 : Time) (h1 : d1.loc.tx = [])
    (h2 : d2.loc.tx = []) (hw : d1.days / 7 = d2.days / 7) :
    weeklyDocID d1 mid = weeklyDocID d2 mid := by
  have m1 := (weekMonday_of_no_tx d1 h1).2
  have m2 := (weekMonday_of_no_tx d2 h2).2
  have f1 := weekFriday_of_no_tx d1 h1
  have f2 := weekFriday_of_no_tx d2 h2
  have g1 := daysToMonday_eq d1
  have g2 := daysToMonday_eq d2
  have em : (weekMonday d1).days = (weekMonday d2).days := by omega
  have ef : (weekFriday d1).days = (weekFriday d2).days := by omega
  simp only [weeklyDocID, Time.Format, Time.date, em, ef]

/-- Where the location has no transitions, the monthly key is built from the last day
of the month of the reference date. -/
theorem monthly_key_of_no_tx (mid : String) (date : Time) (h : date.loc.tx = []) :
    monthlyDocID date mid = mid ++ "_monthly_" ++ (lastDayOfMonth date).Format ∧
    (lastDayOfMonth date).date =
      (date.date.1, date.date.2.1, daysIn date.date.1 date.date.2.1) := by
  obtain ⟨a1, a2, a3, a4, a5⟩ := civil_valid date.days
  refine ⟨rfl, ?_⟩
  have hab := Date_abs_of_no_tx date.date.1 (date.date.2.1 + 1) 0 0 0 0 date.loc h
    (by omega) (by omega) (by omega) (by omega) (by omega) (by omega)
  have hd : (lastDayOfMonth date).days =
      civilToDays date.date.1 date.date.2.1 (daysIn date.date.1 date.date.2.1) := by
    have e := civilToDays_next_month_zero date.date.1 date.date.2.1 a1 a2
    rw [← e]
    simp only [Time.days, lastDayOfMonth]
    rw [hab]
    omega
  have hv : (lastDayOfMonth date).date = civil (lastDayOfMonth date).days := rfl
  rw [hv, hd]
  exact civil_civilToDays _ _ _ a1 a2 (by rw [daysIn_eq]; exact monthLen_bounds _ _)
    (le_refl _)

/-! ## Aggregation lemmas -/

theorem wrapInt64_range (x : Int) :
    -9223372036854775808 ≤ wrapInt64 x ∧ wrapInt64 x < 9223372036854775808 := by
  unfold wrapInt64
  norm_num
  omega

theorem wrapInt64_add_left (a b : Int) : wrapInt64 (wrapInt64 a + b) = wrapInt64 (a + b) := by
  unfold wrapInt64
  norm_num
  omega

theorem wrapInt64_add_both (a b : Int) :
    wrapInt64 (wrapInt64 a + wrapInt64 b) = wrapInt64 (a + b) := by
  unfold wrapInt64
  norm_num
  omega

theorem wrapInt64_idem (a : Int) : wrapInt64 (wrapInt64 a) = wrapInt64 a := by
  unfold wrapInt64
  norm_num

theorem wrapInt64_zero : wrapInt64 0 = 0 := by decide

theorem foldl_wrap (l : List Int) (t : Int) :
    wrapInt64 (l.foldl (fun acc a => wrapInt64 (acc + a)) t) = wrapInt64 (t + l.sum) := by
  induction l generalizing t with
  | nil => simp
  | cons a rest ih =>
    simp only [List.foldl_cons, List.sum_cons]
    rw [ih, wrapInt64_add_left, add_assoc]

theorem foldl_wrap_fixed (l : List Int) (t : Int) (ht : wrapInt64 t = t) :
    wrapInt64 (l.foldl (fun acc a => wrapInt64 (acc + a)) t) =
      l.foldl (fun acc a => wrapInt64 (acc + a)) t := by
  induction l generalizing t with
  | nil => simpa using ht
  | cons a rest ih =>
    simp only [List.foldl_cons]
    exact ih _ (wrapInt64_idem _)

theorem int64Sum_eq (l : List Int) : int64Sum l = wrapInt64 l.sum := by
  unfold int64Sum
  rw [← foldl_wrap_fixed l 0 wrapInt64_zero, foldl_wrap, zero_add]

/-- The four ways one iteration of the loop can go. -/
theorem sumLoop_cons (c : Collection) (f : String → String) (mid : String)
    (rest : List String) (t : Int) (log : List String) :
    (c (f mid) = .error .ErrDocumentNotFound ∧ abortsAt c (f mid) = false ∧
      amountAt c (f mid) = 0 ∧
      sumLoop c f (mid :: rest) t log = sumLoop c f rest t (log ++ [f mid])) ∨
    (∃ e, e ≠ GocbError.ErrDocumentNotFound ∧ abortsAt c (f mid) = true ∧
      sumLoop c f (mid :: rest) t log = ⟨0, some (.failedToGet (f mid) e), log ++ [f mid]⟩) ∨
    (abortsAt c (f mid) = true ∧
      sumLoop c f (mid :: rest) t log = ⟨0, some (.failedToDecode (f mid)), log ++ [f mid]⟩) ∨
    (∃ s, c (f mid) = .ok ⟨some s⟩ ∧ abortsAt c (f mid) = false ∧
      amountAt c (f mid) = s.Amount ∧
      sumLoop c f (mid :: rest) t log =
        sumLoop c f rest (wrapInt64 (t + s.Amount)) (log ++ [f mid])) := by
  cases hc : c (f mid) with
  | error e =>
    by_cases he : e = GocbError.ErrDocumentNotFound
    · subst he
      left
      simp [sumLoop, abortsAt, amountAt, hc]
    · right; left
      exact ⟨e, he, by simp [abortsAt, hc, he], by simp [sumLoop, hc, he]⟩
  | ok r =>
    obtain ⟨content⟩ := r
    cases content with
    | none =>
      right; right; left
      simp [sumLoop, abortsAt, hc]
    | some s =>
      right; right; right
      exact ⟨s, rfl, by simp [abortsAt, hc], by simp [amountAt, hc], by simp [sumLoop, hc]⟩

theorem sumLoop_err (c : Collection) (f : String → String) (ids : List String)
    (t : Int) (log : List String) :
    ((sumLoop c f ids t log).err ≠ none ↔ ∃ mid ∈ ids, abortsAt c (f mid) = true) ∧
    ((sumLoop c f ids t log).err ≠ none → (sumLoop c f ids t log).total = 0) := by
  induction ids generalizing t log with
  | nil => simp [sumLoop]
  | cons mid rest ih =>
    simp only [List.mem_cons, exists_eq_or_imp]
    rcases sumLoop_cons c f mid rest t log with ⟨_, h1, _, h2⟩ | ⟨e, _, h1, h2⟩ | ⟨h1, h2⟩ |
        ⟨s, _, h1, _, h2⟩
    · rw [h2, h1]; simpa using ih t (log ++ [f mid])
    · rw [h2, h1]; simp
    · rw [h2, h1]; simp
    · rw [h2, h1]; simpa using ih _ (log ++ [f mid])

theorem sumLoop_total (c : Collection) (f : String → String) (ids : List String)
    (t : Int) (log : List String) (ht : wrapInt64 t = t)
    (h : (sumLoop c f ids t log).err = none) :
    (sumLoop c f ids t log).total =
      wrapInt64 (t + (ids.map fun mid => amountAt c (f mid)).sum) := by
  induction ids generalizing t log with
  | nil => simp [sumLoop, ht]
  | cons mid rest ih =>
    simp only [List.map_cons, List.sum_cons]
    rcases sumLoop_cons c f mid rest t log with ⟨_, _, h1, h2⟩ | ⟨e, _, _, h2⟩ | ⟨_, h2⟩ |
        ⟨s, _, _, h1, h2⟩
    · rw [h2] at h ⊢
      rw [h1, zero_add]
      exact ih _ _ ht h
    · rw [h2] at h; simp at h
    · rw [h2] at h; simp at h
    · rw [h2] at h ⊢
      rw [h1, ih _ _ (wrapInt64_idem _) h, wrapInt64_add_left, add_assoc]

theorem sumLoop_single (c : Collection) (f : String → String) (mid : String) :
    (sumLoop c f [mid] 0 []).fetched = [f mid] := by
  rcases sumLoop_cons c f mid [] 0 [] with ⟨_, _, _, h2⟩ | ⟨e, _, _, h2⟩ | ⟨_, h2⟩ |
      ⟨s, _, _, _, h2⟩ <;> rw [h2] <;> simp [sumLoop]

/-- The keys fetched by the loop are the keys of an initial segment of the list: of the
whole list when there is no error. -/
theorem sumLoop_fetched (c : Collection) (f : String → String) (ids : List String)
    (t : Int) (log : List String) :
    ∃ k, (sumLoop c f ids t log).fetched = log ++ (ids.take k).map f ∧
      ((sumLoop c f ids t log).err = none → (ids.take k) = ids) := by
  induction ids generalizing t log with
  | nil => exact ⟨0, by simp [sumLoop]⟩
  | cons mid rest ih =>
    rcases sumLoop_cons c f mid rest t log with ⟨_, _, _, h2⟩ | ⟨e, _, _, h2⟩ | ⟨_, h2⟩ |
        ⟨s, _, _, _, h2⟩
    · obtain ⟨k, hk1, hk2⟩ := ih t (log ++ [f mid])
      refine ⟨k + 1, ?_, ?_⟩
      · rw [h2, hk1]; simp
      · rw [h2]; intro he; simp [hk2 he]
    · exact ⟨1, by rw [h2]; simp⟩
    · exact ⟨1, by rw [h2]; simp⟩
    · obtain ⟨k, hk1, hk2⟩ := ih (wrapInt64 (t + s.Amount)) (log ++ [f mid])
      refine ⟨k + 1, ?_, ?_⟩
      · rw [h2, hk1]; simp
      · rw [h2]; intro he; simp [hk2 he]

theorem sumLoop_fetched_mem (c : Collection) (f : String → String) (ids : List String)
    (key : String) (h : key ∈ (sumLoop c f ids 0 []).fetched) : ∃ mid ∈ ids, key = f mid := by
  obtain ⟨k, hk, _⟩ := sumLoop_fetched c f ids 0 []
  rw [hk, List.nil_append, List.mem_map] at h
  obtain ⟨mid, hm, he⟩ := h
  exact ⟨mid, List.mem_of_mem_take hm, he.symm⟩

theorem sprintfD_eq_toString (x : Int) : sprintfD x = toString x := by
  cases x with
  | ofNat n =>
    have h : ¬ ((Int.ofNat n) < 0) := by simp
    simp only [sprintfD, if_neg h]
    rfl
  | negSucc n =>
    have h : (Int.negSucc n) < 0 := Int.negSucc_lt_zero n
    simp only [sprintfD, if_pos h]
    rfl

theorem calculate_eq (w : Window) (c : Collection) (ids : List String) (date : Time) :
    calculate w c ids date = sumLoop c (docIDFor w date) ids 0 [] := by
  cases w <;> rfl


/-! ## What the loop computes -/

/-- When no lookup returns an error other than the sentinel itself and no fetched
document fails to decode, a calculation function returns no error and the int64 sum, one
term per list entry, of the amounts of the documents found. -/
theorem total_of_no_abort (w : Window) (collection : Collection)
    (merchantIDs : List String) (date : Time)
    (h : ∀ mid ∈ merchantIDs, abortsAt collection (docIDFor w date mid) = false) :
    (calculate w collection merchantIDs date).err = none ∧
    (calculate w collection merchantIDs date).total =
      int64Sum (merchantIDs.map fun mid => amountAt collection (docIDFor w date mid)) := by
  rw [calculate_eq]
  have he : (sumLoop collection (docIDFor w date) merchantIDs 0 []).err = none := by
    by_contra hne
    obtain ⟨mid, hmid, hf⟩ := (sumLoop_err collection _ merchantIDs 0 []).1.1 hne
    rw [h mid hmid] at hf
    exact Bool.false_ne_true hf
  have ht := sumLoop_total collection _ merchantIDs 0 [] wrapInt64_zero he
  rw [zero_add] at ht
  exact ⟨he, by rw [int64Sum_eq]; exact ht⟩

/-- Against the real client every absent document makes the loop stop with an error:
the error it reports is not equal to the sentinel. -/
theorem gocbGet_absent_aborts (bucket : Bucket) (docID : String) (h : bucket docID = none) :
    abortsAt (gocbGet bucket) docID = true ∧ failsAt (gocbGet bucket) docID = false := by
  simp [abortsAt, failsAt, gocbGet, h, GocbError.isNotFound]

/-- Against the real client a calculation function returns an error, with total 0, as
soon as the document of one listed merchant is absent. -/
theorem absent_document_is_error (w : Window) (bucket : Bucket) (merchantIDs : List String)
    (date : Time) (mid : String) (hm : mid ∈ merchantIDs)
    (h : bucket (docIDFor w date mid) = none) :
    (calculate w (gocbGet bucket) merchantIDs date).err ≠ none ∧
    (calculate w (gocbGet bucket) merchantIDs date).total = 0 := by
  rw [calculate_eq]
  obtain ⟨h1, h2⟩ := sumLoop_err (gocbGet bucket) (docIDFor w date) merchantIDs 0 []
  have he := h1.2 ⟨mid, hm, (gocbGet_absent_aborts bucket _ h).1⟩
  exact ⟨he, h2 he⟩

/-! ## Aggregation properties -/

/-- C1 (code defect): in the scenario of the specification, M1's daily document holds
amount 100 and M2's is absent. The client reports the absent document as not found, no
lookup fails otherwise, and the sum of the amounts that exist is 100; yet
`calculateDailyTotal` stops at M2 and returns total 0 with an error, because the error
of the client wraps the sentinel and is not equal to it. -/
theorem daily_total_absent_document :
    failsAt (gocbGet exampleBucket) (dailyDocID exampleNow "M1") = false ∧
    failsAt (gocbGet exampleBucket) (dailyDocID exampleNow "M2") = false ∧
    gocbGet exampleBucket (dailyDocID exampleNow "M2") =
      .error (.KeyValueError .ErrDocumentNotFound) ∧
    GocbError.isNotFound (.KeyValueError .ErrDocumentNotFound) = true ∧
    int64Sum (["M1", "M2"].map fun mid =>
      amountAt (gocbGet exampleBucket) (dailyDocID exampleNow mid)) = 100 ∧
    calculateDailyTotal (gocbGet exampleBucket) ["M1", "M2"] exampleNow =
      ⟨0, some (.failedToGet "M2_daily_2024-01-03" (.KeyValueError .ErrDocumentNotFound)),
        ["M1_daily_2024-01-03", "M2_daily_2024-01-03"]⟩ := by
  refine ⟨by decide, by decide, rfl, rfl, by decide, by decide⟩

/-- C2 (code defect): with nothing stored, the only outcome of every lookup is
not-found, and yet each of the three calculation functions returns an error for the
list M1 instead of total 0 without error. -/
theorem all_absent_is_error :
    failsAt (gocbGet emptyBucket) (dailyDocID exampleNow "M1") = false ∧
    failsAt (gocbGet emptyBucket) (weeklyDocID exampleNow "M1") = false ∧
    failsAt (gocbGet emptyBucket) (monthlyDocID exampleNow "M1") = false ∧
    calculateDailyTotal (gocbGet emptyBucket) ["M1"] exampleNow =
      ⟨0, some (.failedToGet "M1_daily_2024-01-03" (.KeyValueError .ErrDocumentNotFound)),
        ["M1_daily_2024-01-03"]⟩ ∧
    calculateWeeklyTotal (gocbGet emptyBucket) ["M1"] exampleNow =
      ⟨0, some (.failedToGet "M1_weekly_2024-01-01_2024-01-05"
        (.KeyValueError .ErrDocumentNotFound)), ["M1_weekly_2024-01-01_2024-01-05"]⟩ ∧
    calculateMonthlyTotal (gocbGet emptyBucket) ["M1"] exampleNow =
      ⟨0, some (.failedToGet "M1_monthly_2024-01-31" (.KeyValueError .ErrDocumentNotFound)),
        ["M1_monthly_2024-01-31"]⟩ := by
  refine ⟨by decide, by decide, by decide, by decide, by decide, by decide⟩

/-- C3: the order of the merchant IDs does not matter: on two lists that are
permutations of each other a calculation function returns the same total and fails on
one exactly when it fails on the other; and a total returned without error is the int64
sum of the amounts of the documents that exist. -/
theorem total_order_independent (w : Window) (collection : Collection) (date : Time)
    (xs ys : List String) (h : xs.Perm ys) :
    (calculate w collection xs date).total = (calculate w collection ys date).total ∧
    ((calculate w collection xs date).err ≠ none ↔
      (calculate w collection ys date).err ≠ none) ∧
    ((calculate w collection xs date).err = none →
      (calculate w collection xs date).total =
        wrapInt64 (xs.map fun mid => amountAt collection (docIDFor w date mid)).sum) := by
  rw [calculate_eq, calculate_eq]
  obtain ⟨x1, x2⟩ := sumLoop_err collection (docIDFor w date) xs 0 []
  obtain ⟨y1, y2⟩ := sumLoop_err collection (docIDFor w date) ys 0 []
  have hiff : (sumLoop collection (docIDFor w date) xs 0 []).err ≠ none ↔
      (sumLoop collection (docIDFor w date) ys 0 []).err ≠ none := by
    rw [x1, y1]
    constructor
    · rintro ⟨mid, hm, hf⟩; exact ⟨mid, h.mem_iff.1 hm, hf⟩
    · rintro ⟨mid, hm, hf⟩; exact ⟨mid, h.mem_iff.2 hm, hf⟩
  have hsum : ∀ zs, (sumLoop collection (docIDFor w date) zs 0 []).err = none →
      (sumLoop collection (docIDFor w date) zs 0 []).total =
        wrapInt64 (zs.map fun mid => amountAt collection (docIDFor w date mid)).sum := by
    intro zs hz
    have ht := sumLoop_total collection _ zs 0 [] wrapInt64_zero hz
    rw [zero_add] at ht
    exact ht
  refine ⟨?_, hiff, hsum xs⟩
  by_cases hx : (sumLoop collection (docIDFor w date) xs 0 []).err = none
  · have hy : (sumLoop collection (docIDFor w date) ys 0 []).err = none := by
      by_contra hne
      exact (hiff.2 hne) hx
    rw [hsum xs hx, hsum ys hy]
    congr 1
    exact (h.map _).sum_eq
  · rw [x2 hx, y2 (hiff.1 hx)]

/-- C3 on an example: with daily documents of 100 for M1 and 250 for M2, the lists
M1, M2 and M2, M1 both give the daily total 350. -/
theorem total_order_independent_witness :
    (["M1", "M2"] : List String).Perm ["M2", "M1"] ∧
    (calculateDailyTotal (gocbGet twoBucket) ["M1", "M2"] exampleNow).total =
      (calculateDailyTotal (gocbGet twoBucket) ["M2", "M1"] exampleNow).total ∧
    (calculateDailyTotal (gocbGet twoBucket) ["M2", "M1"] exampleNow).total = 350 :=
  ⟨List.Perm.swap "M2" "M1" [],
    (total_order_independent .daily (gocbGet twoBucket) exampleNow ["M1", "M2"] ["M2", "M1"]
      (List.Perm.swap "M2" "M1" [])).1, by decide⟩

/-- C10: when the aggregation succeeds on `xs` and on `ys`, it succeeds on `xs ++ ys`
with the int64 sum of the two totals; the empty list gives total 0 without error, and a
merchant ID listed twice is counted twice. -/
theorem total_append (w : Window) (collection : Collection) (date : Time)
    (xs ys : List String) (hx : (calculate w collection xs date).err = none)
    (hy : (calculate w collection ys date).err = none) :
    (calculate w collection (xs ++ ys) date).err = none ∧
    (calculate w collection (xs ++ ys) date).total =
      wrapInt64 ((calculate w collection xs date).total +
        (calculate w collection ys date).total) ∧
    (calculate w collection [] date).err = none ∧
    (calculate w collection [] date).total = 0 ∧
    (calculate w collection (xs ++ xs) date).total =
      wrapInt64 (2 * (calculate w collection xs date).total) := by
  rw [calculate_eq] at hx hy
  simp only [calculate_eq]
  have happ : ∀ as bs, (sumLoop collection (docIDFor w date) as 0 []).err = none →
      (sumLoop collection (docIDFor w date) bs 0 []).err = none →
      (sumLoop collection (docIDFor w date) (as ++ bs) 0 []).err = none ∧
      (sumLoop collection (docIDFor w date) (as ++ bs) 0 []).total =
        wrapInt64 ((sumLoop collection (docIDFor w date) as 0 []).total +
          (sumLoop collection (docIDFor w date) bs 0 []).total) := by
    intro as bs ha hb
    have he : (sumLoop collection (docIDFor w date) (as ++ bs) 0 []).err = none := by
      by_contra hne
      obtain ⟨mid, hm, hf⟩ := (sumLoop_err collection _ (as ++ bs) 0 []).1.1 hne
      rcases List.mem_append.1 hm with hm1 | hm1
      · exact (sumLoop_err collection _ as 0 []).1.2 ⟨mid, hm1, hf⟩ ha
      · exact (sumLoop_err collection _ bs 0 []).1.2 ⟨mid, hm1, hf⟩ hb
    refine ⟨he, ?_⟩
    rw [sumLoop_total collection _ (as ++ bs) 0 [] wrapInt64_zero he,
      sumLoop_total collection _ as 0 [] wrapInt64_zero ha,
      sumLoop_total collection _ bs 0 [] wrapInt64_zero hb, wrapInt64_add_both]
    simp
  refine ⟨(happ xs ys hx hy).1, (happ xs ys hx hy).2, rfl, rfl, ?_⟩
  rw [(happ xs xs hx hx).2, two_mul]

/-- C10 on examples: M1 listed twice counts its amount of 100 twice; and with the
largest int64 amount the doubled total wraps to -2. -/
theorem total_append_witness :
    (calculateDailyTotal (gocbGet exampleBucket) ["M1"] exampleNow).err = none ∧
    (calculateDailyTotal (gocbGet exampleBucket) ["M1", "M1"] exampleNow).total = 200 ∧
    (calculateDailyTotal (gocbGet bigBucket) ["M1"] exampleNow).err = none ∧
    (calculateDailyTotal (gocbGet bigBucket) ["M1", "M1"] exampleNow).total = -2 :=
  have h : (calculate .daily (gocbGet exampleBucket) ["M1"] exampleNow).err = none := by
    decide
  have g : (calculate .daily (gocbGet bigBucket) ["M1"] exampleNow).err = none := by decide
  ⟨h, (total_append .daily (gocbGet exampleBucket) exampleNow ["M1"] ["M1"] h h).2.1.trans
    (by decide), g,
    (total_append .daily (gocbGet bigBucket) exampleNow ["M1"] ["M1"] g g).2.1.trans
      (by decide)⟩

/-! ## Key derivation properties -/

/-- C5 (code defect): for 2024-03-15 and for 2030-03-15 in Atlantic/Azores the last day
of the month is the 31st, but `time.Date(year, month+1, 0, 0, 0, 0, 0, loc)` is local
midnight of the 31st, which the change to summer time skips; the library resolves it to
23:00 of the 30th, and the monthly key is that of the 30th. -/
theorem monthly_key_azores_march :
    azoresMarch2024.date = (2024, 3, 15) ∧
    daysIn 2024 3 = 31 ∧
    (lastDayOfMonth azoresMarch2024).date = (2024, 3, 30) ∧
    (lastDayOfMonth azoresMarch2024).Clock = (23, 0, 0) ∧
    monthlyDocID azoresMarch2024 "M1" = "M1_monthly_2024-03-30" ∧
    (calculateMonthlyTotal (gocbGet emptyBucket) ["M1"] azoresMarch2024).fetched =
      ["M1_monthly_2024-03-30"] ∧
    azoresMarch2030.date = (2030, 3, 15) ∧
    daysIn 2030 3 = 31 ∧
    (lastDayOfMonth azoresMarch2030).date = (2030, 3, 30) ∧
    monthlyDocID azoresMarch2030 "M1" = "M1_monthly_2030-03-30" := by
  refine ⟨by decide, by decide, by decide, by decide, by decide, by decide, by decide,
    by decide, by decide, by decide⟩

/-- C6: a request whose decoded merchant ID list is empty is answered with status 400
and code E002, and no key is fetched, whatever the store holds. -/
theorem empty_mid_rejected (collection : Collection) (now : Time)
    (req : MerchantSummaryRequest) (h : req.MID = []) :
    (getMerchantSummary collection now (some req)).response.statusCode = 400 ∧
    (getMerchantSummary collection now (some req)).response.body.ErrorSchema.ErrorCode =
      "E002" ∧
    (getMerchantSummary collection now (some req)).fetched = [] := by
  simp [getMerchantSummary, h, sendErrorResponse]

/-- C6 on an example: the empty list against a bucket that holds documents. -/
theorem empty_mid_rejected_witness :
    (getMerchantSummary (gocbGet fullBucket) exampleNow (some ⟨[]⟩)).response.statusCode
      = 400 ∧
    (getMerchantSummary (gocbGet fullBucket) exampleNow
      (some ⟨[]⟩)).response.body.ErrorSchema.ErrorCode = "E002" ∧
    (getMerchantSummary (gocbGet fullBucket) exampleNow (some ⟨[]⟩)).fetched = [] :=
  empty_mid_rejected (gocbGet fullBucket) exampleNow ⟨[]⟩ rfl

/-- C7: with a non-empty merchant ID list the handler answers 500 with the code of the
first failing window, in the order daily (E003), weekly (E004), monthly (E005), and the
later windows fetch nothing; it answers with one of these codes only when that window
failed after the earlier ones succeeded. -/
theorem first_failing_window (collection : Collection) (now : Time)
    (req : MerchantSummaryRequest) (h : req.MID ≠ []) :
    ((calculateDailyTotal collection req.MID now).err ≠ none →
      (getMerchantSummary collection now (some req)).response.statusCode = 500 ∧
      (getMerchantSummary collection now (some req)).response.body.ErrorSchema.ErrorCode =
        "E003" ∧
      (getMerchantSummary collection now (some req)).fetched =
        (calculateDailyTotal collection req.MID now).fetched ∧
      ∀ key ∈ (getMerchantSummary collection now (some req)).fetched,
        ∃ mid ∈ req.MID, key = dailyDocID now mid) ∧
    ((calculateDailyTotal collection req.MID now).err = none →
      (calculateWeeklyTotal collection req.MID now).err ≠ none →
      (getMerchantSummary collection now (some req)).response.statusCode = 500 ∧
      (getMerchantSummary collection now (some req)).response.body.ErrorSchema.ErrorCode =
        "E004" ∧
      (getMerchantSummary collection now (some req)).fetched =
        (calculateDailyTotal collection req.MID now).fetched ++
          (calculateWeeklyTotal collection req.MID now).fetched ∧
      ∀ key ∈ (getMerchantSummary collection now (some req)).fetched,
        ∃ mid ∈ req.MID, key = dailyDocID now mid ∨ key = weeklyDocID now mid) ∧
    ((calculateDailyTotal collection req.MID now).err = none →
      (calculateWeeklyTotal collection req.MID now).err = none →
      (calculateMonthlyTotal collection req.MID now).err ≠ none →
      (getMerchantSummary collection now (some req)).response.statusCode = 500 ∧
      (getMerchantSummary collection now (some req)).response.body.ErrorSchema.ErrorCode =
        "E005") ∧
    ((getMerchantSummary collection now (some req)).response.body.ErrorSchema.ErrorCode =
        "E003" → (calculateDailyTotal collection req.MID now).err ≠ none) ∧
    ((getMerchantSummary collection now (some req)).response.body.ErrorSchema.ErrorCode =
        "E004" → (calculateDailyTotal collection req.MID now).err = none ∧
          (calculateWeeklyTotal collection req.MID now).err ≠ none) ∧
    ((getMerchantSummary collection now (some req)).response.body.ErrorSchema.ErrorCode =
        "E005" → (calculateDailyTotal collection req.MID now).err = none ∧
          (calculateWeeklyTotal collection req.MID now).err = none ∧
          (calculateMonthlyTotal collection req.MID now).err ≠ none) := by
  have hlen : ¬ (req.MID.length = 0) := by
    intro h0; exact h (List.length_eq_zero.1 h0)
  have kd : ∀ key ∈ (calculateDailyTotal collection req.MID now).fetched,
      ∃ mid ∈ req.MID, key = dailyDocID now mid :=
    fun key hk => sumLoop_fetched_mem collection _ req.MID key hk
  have kw : ∀ key ∈ (calculateWeeklyTotal collection req.MID now).fetched,
      ∃ mid ∈ req.MID, key = weeklyDocID now mid :=
    fun key hk => sumLoop_fetched_mem collection _ req.MID key hk
  simp only [getMerchantSummary, hlen, if_false]
  cases hd : (calculateDailyTotal collection req.MID now).err with
  | some e => simpa [sendErrorResponse] using kd
  | none =>
    cases hw : (calculateWeeklyTotal collection req.MID now).err with
    | some e =>
      simp [sendErrorResponse]
      rintro key (hk | hk)
      · obtain ⟨mid, hm, he⟩ := kd key hk
        exact ⟨mid, hm, Or.inl he⟩
      · obtain ⟨mid, hm, he⟩ := kw key hk
        exact ⟨mid, hm, Or.inr he⟩
    | none =>
      cases hm : (calculateMonthlyTotal collection req.MID now).err with
      | some e => simp [sendErrorResponse]
      | none => simp

/-- C7 on examples: an absent daily document of M2 gives E003 after fetching only
daily keys, a weekly document that does not decode gives E004 after the daily and weekly
keys, and an absent monthly document gives E005. -/
theorem first_failing_window_witness :
    ((getMerchantSummary (gocbGet exampleBucket) exampleNow
        (some ⟨["M1", "M2"]⟩)).response.statusCode = 500 ∧
      (getMerchantSummary (gocbGet exampleBucket) exampleNow
        (some ⟨["M1", "M2"]⟩)).response.body.ErrorSchema.ErrorCode = "E003" ∧
      (getMerchantSummary (gocbGet exampleBucket) exampleNow (some ⟨["M1", "M2"]⟩)).fetched =
        ["M1_daily_2024-01-03", "M2_daily_2024-01-03"]) ∧
    ((getMerchantSummary (gocbGet weeklyBrokenBucket) exampleNow
        (some ⟨["M1"]⟩)).response.statusCode = 500 ∧
      (getMerchantSummary (gocbGet weeklyBrokenBucket) exampleNow
        (some ⟨["M1"]⟩)).response.body.ErrorSchema.ErrorCode = "E004" ∧
      (getMerchantSummary (gocbGet weeklyBrokenBucket) exampleNow (some ⟨["M1"]⟩)).fetched =
        ["M1_daily_2024-01-03", "M1_weekly_2024-01-01_2024-01-05"]) ∧
    ((getMerchantSummary (gocbGet noMonthlyBucket) exampleNow
        (some ⟨["M1"]⟩)).response.statusCode = 500 ∧
      (getMerchantSummary (gocbGet noMonthlyBucket) exampleNow
        (some ⟨["M1"]⟩)).response.body.ErrorSchema.ErrorCode = "E005") :=
  have a := (first_failing_window (gocbGet exampleBucket) exampleNow ⟨["M1", "M2"]⟩
    (by decide)).1 (by decide)
  have b := (first_failing_window (gocbGet weeklyBrokenBucket) exampleNow ⟨["M1"]⟩
    (by decide)).2.1 (by decide) (by decide)
  have c := (first_failing_window (gocbGet noMonthlyBucket) exampleNow ⟨["M1"]⟩
    (by decide)).2.2.1 (by decide) (by decide) (by decide)
  ⟨⟨a.1, a.2.1, a.2.2.1.trans (by decide)⟩, ⟨b.1, b.2.1, b.2.2.1.trans (by decide)⟩, c⟩

/-- C8: with a non-empty merchant ID list and three successful aggregations at the one
captured time `now`, the handler answers 200 with code D000, messages "Success" and
"Berhasil", the input list unchanged, `now` formatted YYYY-MM-DD (the date string of the
daily keys), and the three totals rendered in decimal by `%d`. -/
theorem success_response (collection : Collection) (now : Time)
    (req : MerchantSummaryRequest) (h : req.MID ≠ [])
    (hd : (calculateDailyTotal collection req.MID now).err = none)
    (hw : (calculateWeeklyTotal collection req.MID now).err = none)
    (hm : (calculateMonthlyTotal collection req.MID now).err = none) :
    (getMerchantSummary collection now (some req)).response.statusCode = 200 ∧
    (getMerchantSummary collection now (some req)).response.body.ErrorSchema =
      ⟨"D000", ⟨"Berhasil", "Success"⟩⟩ ∧
    (getMerchantSummary collection now (some req)).response.body.OutputSchema =
      ⟨req.MID, now.Format,
        sprintfD (calculateDailyTotal collection req.MID now).total,
        sprintfD (calculateWeeklyTotal collection req.MID now).total,
        sprintfD (calculateMonthlyTotal collection req.MID now).total⟩ ∧
    (∀ mid, dailyDocID now mid = mid ++ "_daily_" ++ now.Format) := by
  have hlen : ¬ (req.MID.length = 0) := by
    intro h0; exact h (List.length_eq_zero.1 h0)
  simp [getMerchantSummary, hlen, hd, hw, hm, dailyDocID]

/-- C8 on an example: M1 has daily, weekly and monthly documents of 100, 700 and 3000,
and the request lists M1 on 2024-01-03. -/
theorem success_response_witness :
    (getMerchantSummary (gocbGet fullBucket) exampleNow (some ⟨["M1"]⟩)).response =
      ⟨200, ⟨⟨"D000", ⟨"Berhasil", "Success"⟩⟩,
        ⟨["M1"], "2024-01-03", "100", "700", "3000"⟩⟩⟩ :=
  have k := success_response (gocbGet fullBucket) exampleNow ⟨["M1"]⟩ (by decide)
    (by decide) (by decide) (by decide)
  have e : ∀ r : HttpResponse, r.statusCode = 200 →
      r.body.ErrorSchema = ⟨"D000", ⟨"Berhasil", "Success"⟩⟩ →
      r.body.OutputSchema = ⟨["M1"], "2024-01-03", "100", "700", "3000"⟩ →
      r = ⟨200, ⟨⟨"D000", ⟨"Berhasil", "Success"⟩⟩,
        ⟨["M1"], "2024-01-03", "100", "700", "3000"⟩⟩⟩ := by
    rintro ⟨s, ⟨es, os⟩⟩ h1 h2 h3
    simp only at h1 h2 h3
    rw [h1, h2, h3]
  e _ k.1 k.2.1 (k.2.2.1.trans (by decide))

end Backend
